import Mathlib

/-!
Verification of the Fornjot B-rep kernel core against its specification.

The embedding models, from the source:
  - `approx_edge` (crates/fj-kernel/src/algorithms/approx/edges.rs)
  - `Cycles::create` and `Cycles::all` (src/kernel/shape/cycles.rs)
  - the 2D boolean difference (src/kernel/shapes/difference_2d.rs)
  - the unimplemented edge/vertex extraction branches (ng/src/geometry/edges.rs)
  - the generic surface-normal estimation (fj/src/geometry/attributes.rs)

Coordinates of the topological layer are modelled as rationals (the source
uses f64; the claims under verification are structural, not about rounding).
The signed-distance normal estimation is modelled over the reals.
-/

namespace Fornjot

/-- Modelled from the spec: a 3-component model-space point
(`Point<3>` from fj-math, not under src/); value type, exact equality
by component. -/
structure Point3 where
  x : ℚ
  y : ℚ
  z : ℚ
deriving DecidableEq

/-- Modelled from the spec: `LocalPoint<1>` pairs a 1-dimensional local
(curve-parameter) coordinate with its realized global position
(`geometry::LocalPoint`, not under src/). Equality requires both to match. -/
structure LocalPoint where
  localCoord : ℚ
  global : Point3
deriving DecidableEq

/-- Modelled from the spec: a `GlobalVertex` owns a single exact `Point<3>`
(`objects::GlobalVertex`, not under src/). -/
structure GlobalVertex where
  position : Point3
deriving DecidableEq

/-- Modelled from the spec: a `Vertex` owns a local curve-parameter coordinate
plus a reference to its `GlobalVertex` (`objects::Vertex`, not under src/). -/
structure Vertex where
  position : ℚ
  global : GlobalVertex
deriving DecidableEq

/-- Modelled from the spec: `VerticesOfEdge` holds zero or two vertices
bounding an edge, in curve-parameter order (`objects::VerticesOfEdge`,
not under src/). -/
def VerticesOfEdge := Option (Vertex × Vertex)

/-- Modelled from the spec: `VerticesOfEdge::convert` maps a function over
both bounding vertices, when present. -/
def VerticesOfEdge.convert (v : VerticesOfEdge)
    (f : Vertex → LocalPoint) : Option (LocalPoint × LocalPoint) :=
  v.map (fun ab => (f ab.1, f ab.2))

/-- `approx_edge` from crates/fj-kernel/src/algorithms/approx/edges.rs.
The source mutates `points` in place; the embedding returns the mutated
sequence. Two bounding vertices: insert the exact vertex `a` at the front
and push `b` at the back. No bounding vertices: push a copy of the first
point (if any) to close the loop. -/
def approx_edge (vertices : VerticesOfEdge) (points : List LocalPoint) :
    List LocalPoint :=
  let converted := vertices.convert
    (fun vertex => LocalPoint.mk vertex.position vertex.global.position)
  match converted with
  | some (a, b) => a :: (points ++ [b])
  | none =>
    match points.head? with
    | some point => points ++ [point]
    | none => points

end Fornjot

namespace Fornjot

/-- Claim C1: for an edge bounded by vertices `a` (start) and `b` (end),
`approx_edge` produces a sequence whose first element is the `LocalPoint`
pairing a's local coordinate with a's `GlobalVertex` position, whose last
element is the corresponding `LocalPoint` for `b`, and whose elements in
between are exactly the supplied interior points, unchanged and in order. -/
theorem approx_edge_two_vertices (a b : Vertex) (points : List LocalPoint) :
    approx_edge (some (a, b)) points =
      LocalPoint.mk a.position a.global.position ::
        (points ++ [LocalPoint.mk b.position b.global.position]) ∧
    (approx_edge (some (a, b)) points).head? =
      some (LocalPoint.mk a.position a.global.position) ∧
    (approx_edge (some (a, b)) points).getLast? =
      some (LocalPoint.mk b.position b.global.position) ∧
    ((approx_edge (some (a, b)) points).drop 1).dropLast = points := by
  refine ⟨rfl, rfl, ?_, ?_⟩
  · show ((LocalPoint.mk a.position a.global.position :: points) ++
      [LocalPoint.mk b.position b.global.position]).getLast? = _
    rw [List.getLast?_concat]
  · simp [approx_edge, VerticesOfEdge.convert, List.dropLast_concat]

/-- Claim C4: for an edge with no bounding vertices, `approx_edge` appends a
copy of the first interior point when one exists (so the first and last
points of the output are equal), and leaves an empty sequence unchanged.
Both branches are captured by `points ++ points.take 1`. -/
theorem approx_edge_self_closed (points : List LocalPoint) :
    approx_edge none points = points ++ points.take 1 ∧
    (approx_edge none points).head? = (approx_edge none points).getLast? := by
  constructor
  · cases points with
    | nil => rfl
    | cons p rest => simp [approx_edge, VerticesOfEdge.convert]
  · cases points with
    | nil => rfl
    | cons p rest =>
      show some p = ((p :: rest) ++ [p]).getLast?
      rw [List.getLast?_concat]

/-- Claim C10: `approx_edge` is total: on every `VerticesOfEdge` value and
every interior sequence, it produces a well-defined output whose length is
exactly determined (input length plus two inserted vertices, or plus the
closing copy when the edge is self-closed and the input non-empty); no
validation of ordering, tolerance or distinctness restricts the domain. -/
theorem approx_edge_total (vertices : VerticesOfEdge)
    (points : List LocalPoint) :
    (approx_edge vertices points).length =
      points.length +
        (match vertices with
         | some _ => 2
         | none => min 1 points.length) := by
  cases vertices with
  | some ab =>
    simp [approx_edge, VerticesOfEdge.convert]
  | none =>
    cases points with
    | nil => rfl
    | cons p rest =>
      simp [approx_edge, VerticesOfEdge.convert]

end Fornjot

namespace Fornjot

/-- Modelled from the spec: an `Edge` of the prototype kernel
(`kernel::topology::edges::Edge`, not under src/): an opaque curve
identifier, optional bounding global vertices in curve-parameter order, and
a direction flag. -/
structure KernelEdge where
  curve : ℕ
  bounds : Option (GlobalVertex × GlobalVertex)
  forward : Bool
deriving DecidableEq

/-- Modelled from the spec: `Edge::reverse` flips the edge's direction
(swapping its bounding vertices and winding sense). -/
def KernelEdge.reverse (e : KernelEdge) : KernelEdge :=
  { curve := e.curve
    bounds := e.bounds.map (fun ab => (ab.2, ab.1))
    forward := !e.forward }

/-- A `Cycle` from the prototype kernel: an ordered collection of edges. -/
structure Cycle where
  edges : List KernelEdge
deriving DecidableEq

/-- `Cycles::create` from src/kernel/shape/cycles.rs. The source mutates the
shape's cycle collection through a mutable reference; the embedding passes
the collection explicitly and returns the created cycle together with the
updated collection. The source performs no validation of any kind. -/
def Cycles.create (cycles : List Cycle) (edges : List KernelEdge) :
    Cycle × List Cycle :=
  let cycle : Cycle := { edges := edges }
  (cycle, cycles ++ [cycle])

/-- `Cycles::all` from src/kernel/shape/cycles.rs: iterate over all cycles. -/
def Cycles.all (cycles : List Cycle) : List Cycle :=
  cycles

/-- A concrete edge used to exercise `Cycles.create` on a duplicate input. -/
def sampleEdge : KernelEdge :=
  { curve := 0, bounds := none, forward := true }

end Fornjot

namespace Fornjot

/-- Claim C8: `Cycles.create` appends exactly one cycle, whose edges are the
given sequence in order, to the shape's cycle collection, leaves every
previously stored cycle unchanged (the old collection is a prefix of the
new one), returns a copy of the created cycle, and the created cycle
appears in the iteration produced by `Cycles.all`. -/
theorem cycles_create_appends (cycles : List Cycle)
    (edges : List KernelEdge) :
    (Cycles.create cycles edges).2 = cycles ++ [Cycle.mk edges] ∧
    (Cycles.create cycles edges).1 = Cycle.mk edges ∧
    (Cycles.create cycles edges).2.take cycles.length = cycles ∧
    (Cycles.create cycles edges).1 ∈
      Cycles.all (Cycles.create cycles edges).2 := by
  refine ⟨rfl, rfl, ?_, ?_⟩
  · simp [Cycles.create]
  · simp [Cycles.create, Cycles.all]

/-- Claim C3 (code bug): creating a second cycle from the identical edge set
does not fail. `Cycles.create` has no error channel at all: the second
creation silently appends a duplicate cycle and returns it, contradicting
the required duplicate-cycle rejection (and every other creation-time
validation the specification requires). -/
theorem cycles_create_duplicate_silently_accepted :
    (Cycles.create (Cycles.create [] [sampleEdge]).2 [sampleEdge]).1 =
      (Cycles.create [] [sampleEdge]).1 ∧
    (Cycles.create (Cycles.create [] [sampleEdge]).2 [sampleEdge]).2 =
      [Cycle.mk [sampleEdge], Cycle.mk [sampleEdge]] := by
  constructor <;> rfl

end Fornjot

namespace Fornjot

/-- Modelled from the spec: an axis-aligned bounding box (parry's `AABB`,
not under src/): minimum and maximum corner points. -/
structure Aabb where
  mins : Point3
  maxs : Point3
deriving DecidableEq

/-- A 2D shape operand of the boolean difference, modelled by the `Shape`
trait capabilities the difference implementation invokes on it: its
bounding volume and its edge list. -/
structure Shape2dData where
  boundingVolume : Aabb
  edges : List KernelEdge
deriving DecidableEq

/-- `fj::Difference2d`: the difference of shape `a` minus shape `b`. -/
structure Difference2d where
  a : Shape2dData
  b : Shape2dData
deriving DecidableEq

/-- `bounding_volume` for `fj::Difference2d` from
src/kernel/shapes/difference_2d.rs: returns `self.a.bounding_volume()`. -/
def Difference2d.boundingVolume (d : Difference2d) : Aabb :=
  d.a.boundingVolume

/-- `edges` for `fj::Difference2d` from src/kernel/shapes/difference_2d.rs:
start from `self.a.edges()` and push `edge.reverse()` for each edge of
`self.b.edges()`, in order. -/
def Difference2d.edges (d : Difference2d) : List KernelEdge :=
  d.b.edges.foldl (fun acc edge => acc ++ [edge.reverse]) d.a.edges

/-- Modelled from the spec: a triangle of the prototype kernel, three
model-space points (the external triangulation's output unit). -/
structure Triangle where
  a : Point3
  b : Point3
  c : Point3
deriving DecidableEq

/-- A straight segment between two points (`Segment` with endpoint fields
`a` and `b`, as consumed by the triangle filter). -/
structure Segment where
  a : Point3
  b : Point3
deriving DecidableEq

/-- Modelled from the spec: `Triangle::edges` (not under src/) returns the
triangle's three edges as segments. -/
def Triangle.edges (t : Triangle) : List Segment :=
  [Segment.mk t.a t.b, Segment.mk t.b t.c, Segment.mk t.c t.a]

/-- The loop body of the triangle filter from
src/kernel/shapes/difference_2d.rs: count the edges of a triangle whose
endpoints are both contained in the point list `b`. -/
def edgesOfB (t : Triangle) (b : List Point3) : ℕ :=
  t.edges.countP (fun s => decide (s.a ∈ b) && decide (s.b ∈ b))

/-- The approximated vertex list of operand `a` in `faces`:
its edges, each approximated at the tolerance, flattened. The per-edge
approximation `approxV` (`Edge::approx_vertices`, not under src/) is an
external parameter. -/
def Difference2d.approxA (approxV : KernelEdge → ℚ → List Point3)
    (d : Difference2d) (tolerance : ℚ) : List Point3 :=
  d.a.edges.flatMap (fun edge => approxV edge tolerance)

/-- The approximated vertex list of operand `b` in `faces`. -/
def Difference2d.approxB (approxV : KernelEdge → ℚ → List Point3)
    (d : Difference2d) (tolerance : ℚ) : List Point3 :=
  d.b.edges.flatMap (fun edge => approxV edge tolerance)

/-- The combined vertex list handed to the external triangulation in
`faces`: `vertices` is extended with `a`, then with `b`. -/
def Difference2d.inputPoints (approxV : KernelEdge → ℚ → List Point3)
    (d : Difference2d) (tolerance : ℚ) : List Point3 :=
  d.approxA approxV tolerance ++ d.approxB approxV tolerance

/-- `faces` for `fj::Difference2d` from src/kernel/shapes/difference_2d.rs:
run the external Delaunay triangulation over the combined vertex list, then
retain only the triangles for which at most one edge has both endpoints in
`b`'s approximated vertex list. The triangulation routine is an external
parameter (spec treats it as an excluded collaborator). -/
def Difference2d.faces (approxV : KernelEdge → ℚ → List Point3)
    (triangulate : List Point3 → List Triangle)
    (d : Difference2d) (tolerance : ℚ) : List Triangle :=
  let b := d.approxB approxV tolerance
  let vertices := d.inputPoints approxV tolerance
  let triangles := triangulate vertices
  triangles.filter (fun triangle => decide (edgesOfB triangle b ≤ 1))

end Fornjot

namespace Fornjot

/-- Claim C6: the bounding volume reported for a 2D difference equals
operand A's bounding volume exactly, and is independent of operand B. -/
theorem difference_bounding_volume_eq (d : Difference2d)
    (b' : Shape2dData) :
    d.boundingVolume = d.a.boundingVolume ∧
    (Difference2d.mk d.a b').boundingVolume = d.boundingVolume := by
  exact ⟨rfl, rfl⟩

/-- The push loop of `Difference2d.edges` unfolded: folding append over a
list equals the initial list followed by the mapped list. -/
theorem foldl_push_map_eq (f : KernelEdge → KernelEdge)
    (l init : List KernelEdge) :
    l.foldl (fun acc e => acc ++ [f e]) init = init ++ l.map f := by
  induction l generalizing init with
  | nil => simp
  | cons e rest ih => simp [ih]

/-- Claim C5: the edge set of the 2D difference is A's edges followed, in
B's internal edge order, by every edge of B individually reversed. -/
theorem difference_edges_concat_reversed (d : Difference2d) :
    d.edges = d.a.edges ++ d.b.edges.map KernelEdge.reverse := by
  exact foldl_push_map_eq KernelEdge.reverse d.b.edges d.a.edges

end Fornjot

namespace Fornjot

/-- Claim C2: the point list handed to the external Delaunay triangulation
is the combined set of A's and B's approximated edge vertices (a point is
in it exactly when it is in `a` or in `b`), and a candidate triangle
survives the classification pass exactly when at most one of its three
edges has both endpoints in `b`; consequently the number of surviving
triangles with 2 or 3 such edges is zero. -/
theorem difference_faces_classification
    (approxV : KernelEdge → ℚ → List Point3)
    (triangulate : List Point3 → List Triangle)
    (d : Difference2d) (tolerance : ℚ) :
    (∀ p, p ∈ d.inputPoints approxV tolerance ↔
      p ∈ d.approxA approxV tolerance ∨ p ∈ d.approxB approxV tolerance) ∧
    (∀ t, t ∈ d.faces approxV triangulate tolerance ↔
      t ∈ triangulate (d.inputPoints approxV tolerance) ∧
        edgesOfB t (d.approxB approxV tolerance) ≤ 1) ∧
    (d.faces approxV triangulate tolerance).countP
      (fun t => decide (2 ≤ edgesOfB t (d.approxB approxV tolerance))) = 0 := by
  refine ⟨?_, ?_, ?_⟩
  · intro p
    simp [Difference2d.inputPoints]
  · intro t
    simp [Difference2d.faces, List.mem_filter]
  · rw [List.countP_eq_zero]
    intro t ht
    have hmem := List.mem_filter.mp ht
    have hle : edgesOfB t (d.approxB approxV tolerance) ≤ 1 :=
      of_decide_eq_true hmem.2
    simpa using Nat.lt_of_le_of_lt hle (by omega)

end Fornjot

namespace Fornjot

/-- The outcome of an edge/vertex extraction request. The source either
returns a value, or — for the unimplemented branches — aborts with a
`todo` panic. A checked "not supported" error, as the specification
requires of a conforming implementation, is a third, distinct outcome that
the source never produces. -/
inductive EdgeExtraction (α : Type) where
  | ok (value : α)
  | notSupported
  | panicUnimplemented
deriving DecidableEq

/-- `fj::Circle`: a circle described by its radius. -/
structure Circle where
  radius : ℚ
deriving DecidableEq

/-- `fj::Sweep`: a swept shape described by its sweep length. -/
structure Sweep where
  length : ℚ
deriving DecidableEq

/-- `Edges for fj::Circle` from ng/src/geometry/edges.rs: the body of
`segments` is an unimplemented panic, for every circle and tolerance. -/
def Circle.segments (_c : Circle) (_tolerance : ℚ) :
    EdgeExtraction (List Segment) :=
  EdgeExtraction.panicUnimplemented

/-- `Edges for fj::Sweep` from ng/src/geometry/edges.rs: the body of
`segments` is an unimplemented panic, for every sweep and tolerance. -/
def Sweep.segments (_s : Sweep) (_tolerance : ℚ) :
    EdgeExtraction (List Segment) :=
  EdgeExtraction.panicUnimplemented

/-- `vertices` for `fj::Difference2d` from
src/kernel/shapes/difference_2d.rs: the body is an unimplemented panic. -/
def Difference2d.vertices (_d : Difference2d) : EdgeExtraction (List Point3) :=
  EdgeExtraction.panicUnimplemented

/-- A concrete difference shape used to exercise the unimplemented vertex
extraction. -/
def sampleDifference : Difference2d :=
  { a := { boundingVolume := Aabb.mk (Point3.mk 0 0 0) (Point3.mk 2 2 0)
           edges := [sampleEdge] }
    b := { boundingVolume := Aabb.mk (Point3.mk 0 0 0) (Point3.mk 1 1 0)
           edges := [sampleEdge] } }

end Fornjot

namespace Fornjot

/-- Claim C7 (code bug): the three unimplemented extraction branches —
circle edge approximation, sweep edge approximation, and difference-shape
vertex extraction — abort with an unimplemented panic, not with the
checked, reported "not supported" error the specification requires: at
concrete inputs each produces the panic outcome and not the checked
error outcome. -/
theorem unimplemented_extraction_panics :
    Circle.segments (Circle.mk 1) 1 = EdgeExtraction.panicUnimplemented ∧
    Sweep.segments (Sweep.mk 1) 1 = EdgeExtraction.panicUnimplemented ∧
    Difference2d.vertices sampleDifference =
      EdgeExtraction.panicUnimplemented ∧
    decide (Circle.segments (Circle.mk 1) 1 =
      EdgeExtraction.notSupported) = false ∧
    decide (Sweep.segments (Sweep.mk 1) 1 =
      EdgeExtraction.notSupported) = false ∧
    decide (Difference2d.vertices sampleDifference =
      EdgeExtraction.notSupported) = false := by
  refine ⟨rfl, rfl, rfl, ?_, ?_, ?_⟩ <;> rfl

end Fornjot

namespace Fornjot

/-- `Distance<D>` from fj/src/geometry/attributes.rs: the point from which
the distance was determined and the signed minimum distance to the
surface. Modelled over the reals (the source uses f32; the claim is about
the structure of the computation, not rounding). -/
structure Distance (D : ℕ) where
  point : Fin D → ℝ
  distance : ℝ

/-- The fixed finite-difference step `EPSILON` from
fj/src/geometry/attributes.rs. -/
noncomputable def EPSILON : ℝ := 0.1

/-- The Euclidean norm of a D-component vector (nalgebra's `norm`). -/
noncomputable def vecNorm {D : ℕ} (v : Fin D → ℝ) : ℝ :=
  Real.sqrt (∑ i, v i ^ 2)

/-- nalgebra's `normalize`: divide a vector by its Euclidean norm. -/
noncomputable def normalizeVec {D : ℕ} (v : Fin D → ℝ) : Fin D → ℝ :=
  fun i => v i / vecNorm v

/-- `SurfaceNormal<2>::normal` for signed-distance fields, from
fj/src/geometry/attributes.rs: differences of `distance` along the two
explicit step vectors `eps_x` and `eps_y`, assembled into `dir` and
normalized. -/
noncomputable def normal2 (sdf : (Fin 2 → ℝ) → Distance 2)
    (point : Fin 2 → ℝ) : Fin 2 → ℝ :=
  let epsX : Fin 2 → ℝ := ![EPSILON, 0]
  let epsY : Fin 2 → ℝ := ![0, EPSILON]
  let dir : Fin 2 → ℝ :=
    ![(sdf (point + epsX)).distance - (sdf (point - epsX)).distance,
      (sdf (point + epsY)).distance - (sdf (point - epsY)).distance]
  normalizeVec dir

/-- `SurfaceNormal<3>::normal` for signed-distance fields, from
fj/src/geometry/attributes.rs: differences of `distance` along the three
explicit step vectors `eps_x`, `eps_y` and `eps_z`, assembled into `dir`
and normalized. -/
noncomputable def normal3 (sdf : (Fin 3 → ℝ) → Distance 3)
    (point : Fin 3 → ℝ) : Fin 3 → ℝ :=
  let epsX : Fin 3 → ℝ := ![EPSILON, 0, 0]
  let epsY : Fin 3 → ℝ := ![0, EPSILON, 0]
  let epsZ : Fin 3 → ℝ := ![0, 0, EPSILON]
  let dir : Fin 3 → ℝ :=
    ![(sdf (point + epsX)).distance - (sdf (point - epsX)).distance,
      (sdf (point + epsY)).distance - (sdf (point - epsY)).distance,
      (sdf (point + epsZ)).distance - (sdf (point - epsZ)).distance]
  normalizeVec dir

/-- Following the spec's words: the step vector of length ε along
coordinate axis `i`. -/
noncomputable def axisStep (D : ℕ) (i : Fin D) : Fin D → ℝ :=
  fun j => if j = i then EPSILON else 0

/-- Following the spec's words: the claimed surface normal — the
D-component vector whose component `i` is the central finite difference
`distance(point + ε·eᵢ) − distance(point − ε·eᵢ)` with fixed step
ε = 0.1, normalized to unit length. -/
noncomputable def centralDiffNormal (D : ℕ)
    (sdf : (Fin D → ℝ) → Distance D) (point : Fin D → ℝ) : Fin D → ℝ :=
  normalizeVec (fun i =>
    (sdf (point + axisStep D i)).distance -
      (sdf (point - axisStep D i)).distance)

end Fornjot

namespace Fornjot

/-- Claim C9: for every signed-distance field in dimension 2 or 3 and every
query point, the derived surface normal of the source equals the
specification's formula: central finite differences of the distance along
each axis with fixed step ε = 0.1, normalized to unit length. -/
theorem surface_normal_central_difference :
    (∀ (sdf : (Fin 2 → ℝ) → Distance 2) (p : Fin 2 → ℝ),
      normal2 sdf p = centralDiffNormal 2 sdf p) ∧
    (∀ (sdf : (Fin 3 → ℝ) → Distance 3) (p : Fin 3 → ℝ),
      normal3 sdf p = centralDiffNormal 3 sdf p) := by
  constructor
  · intro sdf p
    have hx : (![EPSILON, 0] : Fin 2 → ℝ) = axisStep 2 0 := by
      funext j; fin_cases j <;> simp [axisStep]
    have hy : (![0, EPSILON] : Fin 2 → ℝ) = axisStep 2 1 := by
      funext j; fin_cases j <;> simp [axisStep]
    have hdir :
        (fun i => (sdf (p + axisStep 2 i)).distance -
            (sdf (p - axisStep 2 i)).distance) =
          (![(sdf (p + axisStep 2 0)).distance -
              (sdf (p - axisStep 2 0)).distance,
            (sdf (p + axisStep 2 1)).distance -
              (sdf (p - axisStep 2 1)).distance] : Fin 2 → ℝ) := by
      funext i; fin_cases i <;> rfl
    simp only [normal2, centralDiffNormal]
    rw [hx, hy, hdir]
  · intro sdf p
    have hx : (![EPSILON, 0, 0] : Fin 3 → ℝ) = axisStep 3 0 := by
      funext j; fin_cases j <;> simp [axisStep]
    have hy : (![0, EPSILON, 0] : Fin 3 → ℝ) = axisStep 3 1 := by
      funext j; fin_cases j <;> simp [axisStep]
    have hz : (![0, 0, EPSILON] : Fin 3 → ℝ) = axisStep 3 2 := by
      funext j; fin_cases j <;> simp [axisStep]
    have hdir :
        (fun i => (sdf (p + axisStep 3 i)).distance -
            (sdf (p - axisStep 3 i)).distance) =
          (![(sdf (p + axisStep 3 0)).distance -
              (sdf (p - axisStep 3 0)).distance,
            (sdf (p + axisStep 3 1)).distance -
              (sdf (p - axisStep 3 1)).distance,
            (sdf (p + axisStep 3 2)).distance -
              (sdf (p - axisStep 3 2)).distance] : Fin 3 → ℝ) := by
      funext i; fin_cases i <;> rfl
    simp only [normal3, centralDiffNormal]
    rw [hx, hy, hz, hdir]

end Fornjot
